import Mathlib

/-!
# Fall-detection state machine of DrishtiGuide — shallow embedding

This file embeds the fall-detection logic of the ESP32 main controller
(`src/esp32-main-controller/main_controller.ino`, `loop()`, lines 111-167)
and settles the specification's claims about it.

Modelling conventions:
* Acceleration magnitudes (C `float`, g-units) are embedded as integers in
  centi-g (hundredths of a g): the sample value `1.0g` is `100`, the literal
  threshold `0.3` becomes `30`, `2.8` becomes `280`, `0.05` becomes `5`.
  The loop applies only subtraction, absolute value and order comparisons to
  magnitudes, all of which are preserved exactly by this fixed positive
  scaling, so the embedding is faithful to the source's comparisons.
* Timestamps (`millis()`, C `unsigned long`) are embedded as `ℕ`.  The source
  computes elapsed times with unsigned subtraction (`now - lastFallTime`);
  under the spec's clock contract (monotonic millisecond counter that never
  resets during a session) `now ≥ lastFallTime` always holds, so truncated
  `ℕ` subtraction agrees with the C expression and is used directly.
* One iteration of `loop()` processes one acceleration sample; the loop body
  is split into the four blocks of the source (movement tracking, fall
  detection, fall event, inactivity alert), composed by `loopStep`.
* The spec's `update() -> bool` ("returns true exactly on the sample that
  completes a fall detection") corresponds to the fall-event block firing on
  that iteration, exposed here as `fallOut`.  The inactivity alert
  (`startBuzzer(5)`, line 165) is exposed as `alertOut`.
* The repository declares `FallEvent` and class `FallDetector` in
  `fall_detection.h` but ships no implementation for them; the `.ino` loop
  does not record min/max acceleration or duration.  Those parts are
  modelled from the spec where a claim needs them (marked below).
-/

/-- `FallEvent` record, from `src/esp32-main-controller/fall_detection.h`
lines 17-23.  `duration` is `uint16_t` in the header; the field is modelled
from the spec as `now - lowGStartTime` (§4.1 step 4), kept as `ℕ`. -/
structure FallEvent where
  timestamp : ℕ
  maxAcceleration : ℤ
  minAcceleration : ℤ
  duration : ℕ
  isEmergency : Bool
deriving DecidableEq, Repr

/-- Zero-valued sentinel `FallEvent` (spec §4.1: `getLastFall()` returns the
zero-valued/sentinel record if no fall yet). -/
def fallEventSentinel : FallEvent := ⟨0, 0, 0, 0, false⟩

/-- One acceleration sample: timestamp `t` (ms, the `now = millis()` of the
iteration that processes it) and total-acceleration magnitude `acc`
(centi-g, the `totalAcc` computed at lines 114-118). -/
structure Sample where
  t : ℕ
  acc : ℤ
deriving DecidableEq, Repr

/-- Fall parameters, `main_controller.ino` lines 25-28. -/
def FALL_LOW_G : ℤ := 30

/-- `const float FALL_HIGH_G = 2.8;` (line 26). -/
def FALL_HIGH_G : ℤ := 280

/-- `const unsigned long WINDOW_MS = 300;` (line 27). -/
def WINDOW_MS : ℕ := 300

/-- `const unsigned long COOLDOWN_MS = 1000;` (line 28). -/
def COOLDOWN_MS : ℕ := 1000

/-- Movement-delta threshold, the literal `0.05` at line 122. -/
def MOVEMENT_DELTA : ℤ := 5

/-- Inactivity timeout and re-alert interval, the literals `10000` at
lines 162-163. -/
def INACTIVITY_MS : ℕ := 10000

/-- Mutable state of the loop: the globals of `main_controller.ino`
(lines 31-39, and the `static float lastAcc` at line 121) that the
fall/inactivity logic reads or writes.  The buzzer FSM fields
(`buzzerActive`, `buzzerSteps`, `buzzerTimer`) and the display string
`lastFallTimeStr` only drive the GPIO/HTTP plumbing and are not modelled;
the observable alerts are the `startBuzzer` calls, exposed as step outputs.

`lowEntryAcc` and `lastFall` are modelled from the spec (§4.1 step 4:
`minAcceleration` = the magnitude recorded at low-g entry, and the
`FallEvent` built on detection); the `.ino` loop itself stores neither. -/
structure St where
  lastLowTime : ℕ
  lastFallTime : ℕ
  lastMovementTime : ℕ
  lastBuzzToggle : ℕ
  inLowWindow : Bool
  fallDetected : Bool
  inactivityTriggered : Bool
  lastAcc : ℤ
  lowEntryAcc : ℤ
  lastFall : FallEvent
deriving DecidableEq, Repr

/-- Initial state: the globals' initializers (lines 31-39: all timers `0`,
all flags `false`; line 121: `static float lastAcc = 1.0`). -/
def boot : St :=
  { lastLowTime := 0, lastFallTime := 0, lastMovementTime := 0,
    lastBuzzToggle := 0, inLowWindow := false, fallDetected := false,
    inactivityTriggered := false, lastAcc := 100, lowEntryAcc := 0,
    lastFall := fallEventSentinel }

/-- Movement tracking, lines 121-126:
```
if (fabs(totalAcc - lastAcc) > 0.05) { lastMovementTime = now; inactivityTriggered = false; }
lastAcc = totalAcc;
``` -/
def movementUpdate (s : St) (p : Sample) : St :=
  let s1 := if MOVEMENT_DELTA < |p.acc - s.lastAcc| then
      { s with lastMovementTime := p.t, inactivityTriggered := false }
    else s
  { s1 with lastAcc := p.acc }

/-- Fall detection, lines 128-141 (the `lowEntryAcc` recording in the entry
branch is the spec-modelled magnitude-at-low-g-entry; everything else is the
source):
```
if (now - lastFallTime > COOLDOWN_MS) {
  if (!inLowWindow && totalAcc < FALL_LOW_G) { inLowWindow = true; lastLowTime = now; }
  else if (inLowWindow) {
    if (totalAcc > FALL_HIGH_G) { fallDetected = true; inLowWindow = false; }
    if (now - lastLowTime > WINDOW_MS) inLowWindow = false;
  }
}
``` -/
def fallDetectionUpdate (s : St) (p : Sample) : St :=
  if COOLDOWN_MS < p.t - s.lastFallTime then
    if s.inLowWindow = false ∧ p.acc < FALL_LOW_G then
      { s with inLowWindow := true, lastLowTime := p.t, lowEntryAcc := p.acc }
    else if s.inLowWindow = true then
      let s1 := if FALL_HIGH_G < p.acc then
          { s with fallDetected := true, inLowWindow := false }
        else s
      if WINDOW_MS < p.t - s1.lastLowTime then { s1 with inLowWindow := false } else s1
    else s
  else s

/-- Fall-event block, lines 144-159 (the `lastFall` record is modelled from
the spec, §4.1 step 4; the source's observable actions here are
`startBuzzer(2)` and the timestamp string):
```
if (fallDetected) {
  lastFallTime = now; lastMovementTime = now;
  startBuzzer(2); ... lastFallTimeStr = buf;
  fallDetected = false; inactivityTriggered = true; lastBuzzToggle = now;
}
``` -/
def fallEventUpdate (s : St) (p : Sample) : St :=
  if s.fallDetected = true then
    { s with lastFallTime := p.t, lastMovementTime := p.t,
             lastFall := ⟨p.t, p.acc, s.lowEntryAcc, p.t - s.lastLowTime, true⟩,
             fallDetected := false, inactivityTriggered := true,
             lastBuzzToggle := p.t }
  else s

/-- Inactivity alert, lines 161-167; the returned `Bool` is whether
`startBuzzer(5)` fired on this iteration:
```
if (inactivityTriggered && now - lastMovementTime > 10000) {
  if (now - lastBuzzToggle > 10000) { lastBuzzToggle = now; startBuzzer(5); }
}
``` -/
def inactivityUpdate (s : St) (p : Sample) : St × Bool :=
  if s.inactivityTriggered = true ∧ INACTIVITY_MS < p.t - s.lastMovementTime then
    if INACTIVITY_MS < p.t - s.lastBuzzToggle then
      ({ s with lastBuzzToggle := p.t }, true)
    else (s, false)
  else (s, false)

/-- One full iteration of `loop()` on one sample: the four blocks in source
order. -/
def step (s : St) (p : Sample) : St :=
  (inactivityUpdate (fallEventUpdate (fallDetectionUpdate (movementUpdate s p) p) p) p).1

/-- Whether this iteration completes a fall detection — the fall-event block
fires, i.e. the spec's `update()` returns `true` on this sample. -/
def fallOut (s : St) (p : Sample) : Bool :=
  (fallDetectionUpdate (movementUpdate s p) p).fallDetected

/-- Whether the inactivity alert (`startBuzzer(5)`) fires on this iteration. -/
def alertOut (s : St) (p : Sample) : Bool :=
  (inactivityUpdate (fallEventUpdate (fallDetectionUpdate (movementUpdate s p) p) p) p).2

/-- Run the loop over a list of samples. -/
def run (s : St) (tr : List Sample) : St := tr.foldl step s

/-- Per-sample outputs over a trace: for each sample, the pair
(fall detected on this sample, inactivity alert fired on this sample). -/
def outs : St → List Sample → List (Bool × Bool)
  | _, [] => []
  | s, p :: l => (fallOut s p, alertOut s p) :: outs (step s p) l

/-- Detection states of `fall_detection.h` lines 8-14. -/
inductive FallDetectionState
  | normal
  | lowG
  | highG
  | detected
  | cooldown
deriving DecidableEq, Repr

/-- Modelled from the spec: the `FallDetector` class of `fall_detection.h`
(lines 25-92) is declared in the repository but its implementation is not in
`src/`; the fields are the private members of the header (the 50-entry ring
buffer `accelHistory` with its index/count is modelled as a list of at most
50 entries) together with the spec's inactivity tracker
(`lastMovementTimestamp`, `triggered`, `lastAlertTimestamp`, §3). -/
structure FallDetector where
  currentState : FallDetectionState
  lastFall : FallEvent
  lowGStartTime : ℕ
  lastFallTime : ℕ
  lowGThreshold : ℤ
  highGThreshold : ℤ
  detectionWindow : ℕ
  cooldownPeriod : ℕ
  accelHistory : List ℤ
  lastMovementTimestamp : ℕ
  triggered : Bool
  lastAlertTimestamp : ℕ
deriving DecidableEq, Repr

/-- Modelled from the spec: `FallDetector::reset()` — "clears state machine
to `Normal`, clears history buffer, clears last-fall record, clears
inactivity tracker" (§4.1); the implementation is absent from `src/`.
Configuration (thresholds/timing) is set by `setThresholds`/`setTiming` and
is not part of what `reset` clears. -/
def FallDetector.reset (d : FallDetector) : FallDetector :=
  { d with currentState := FallDetectionState.normal,
           lastFall := fallEventSentinel,
           lowGStartTime := 0, lastFallTime := 0,
           accelHistory := [],
           lastMovementTimestamp := 0, triggered := false,
           lastAlertTimestamp := 0 }

/-- Modelled from the spec: `getLastFall()` "returns the most recently
recorded fall (zero-valued/sentinel if none yet)" (§4.1). -/
def FallDetector.getLastFall (d : FallDetector) : FallEvent := d.lastFall

/-- Modelled from the spec: `isInCooldown()` introspection (§4.1); true iff
the state machine is in its `Cooldown` state (header line 69 declares it
with no clock argument). -/
def FallDetector.isInCooldown (d : FallDetector) : Bool :=
  decide (d.currentState = FallDetectionState.cooldown)

/-- Scenario A trace at its literal timestamps (spec §8). -/
def trScenarioA : List Sample := [⟨0, 100⟩, ⟨50, 20⟩, ⟨100, 25⟩, ⟨150, 300⟩]

/-- Scenario A shifted past the boot cooldown window (same inter-sample
gaps, offset +1100 ms). -/
def trScenarioAShift : List Sample :=
  [⟨1100, 100⟩, ⟨1150, 20⟩, ⟨1200, 25⟩, ⟨1250, 300⟩]

/-- Scenario D trace: Scenario A extended by a second high-g spike at
t=1500 (spec §8). -/
def trScenarioD : List Sample := trScenarioA ++ [⟨1500, 300⟩]

/-! ## Block-level characterization lemmas -/

theorem run_append (s : St) (l₁ l₂ : List Sample) :
    run s (l₁ ++ l₂) = run (run s l₁) l₂ :=
  List.foldl_append _ _ _ _

theorem movement_lastFallTime (s : St) (p : Sample) :
    (movementUpdate s p).lastFallTime = s.lastFallTime := by
  simp only [movementUpdate]; split <;> rfl

theorem movement_lastLowTime (s : St) (p : Sample) :
    (movementUpdate s p).lastLowTime = s.lastLowTime := by
  simp only [movementUpdate]; split <;> rfl

theorem movement_inLowWindow (s : St) (p : Sample) :
    (movementUpdate s p).inLowWindow = s.inLowWindow := by
  simp only [movementUpdate]; split <;> rfl

theorem movement_fallDetected (s : St) (p : Sample) :
    (movementUpdate s p).fallDetected = s.fallDetected := by
  simp only [movementUpdate]; split <;> rfl

theorem movement_lastBuzzToggle (s : St) (p : Sample) :
    (movementUpdate s p).lastBuzzToggle = s.lastBuzzToggle := by
  simp only [movementUpdate]; split <;> rfl

theorem movement_lowEntryAcc (s : St) (p : Sample) :
    (movementUpdate s p).lowEntryAcc = s.lowEntryAcc := by
  simp only [movementUpdate]; split <;> rfl

theorem movement_lastFall (s : St) (p : Sample) :
    (movementUpdate s p).lastFall = s.lastFall := by
  simp only [movementUpdate]; split <;> rfl

theorem movement_lastAcc (s : St) (p : Sample) :
    (movementUpdate s p).lastAcc = p.acc := rfl

theorem movement_lastMovementTime (s : St) (p : Sample) :
    (movementUpdate s p).lastMovementTime =
      if MOVEMENT_DELTA < |p.acc - s.lastAcc| then p.t else s.lastMovementTime := by
  simp only [movementUpdate]; split <;> rfl

theorem movement_inactivityTriggered (s : St) (p : Sample) :
    (movementUpdate s p).inactivityTriggered =
      if MOVEMENT_DELTA < |p.acc - s.lastAcc| then false else s.inactivityTriggered := by
  simp only [movementUpdate]; split <;> rfl

theorem det_fallDetected (s : St) (p : Sample) :
    (fallDetectionUpdate s p).fallDetected =
      (s.fallDetected ||
        (decide (COOLDOWN_MS < p.t - s.lastFallTime) && s.inLowWindow &&
          decide (FALL_HIGH_G < p.acc))) := by
  simp only [fallDetectionUpdate]
  split_ifs <;> simp_all

theorem det_lastMovementTime (s : St) (p : Sample) :
    (fallDetectionUpdate s p).lastMovementTime = s.lastMovementTime := by
  simp only [fallDetectionUpdate]; split_ifs <;> rfl

theorem det_lastBuzzToggle (s : St) (p : Sample) :
    (fallDetectionUpdate s p).lastBuzzToggle = s.lastBuzzToggle := by
  simp only [fallDetectionUpdate]; split_ifs <;> rfl

theorem det_inactivityTriggered (s : St) (p : Sample) :
    (fallDetectionUpdate s p).inactivityTriggered = s.inactivityTriggered := by
  simp only [fallDetectionUpdate]; split_ifs <;> rfl

theorem det_lastAcc (s : St) (p : Sample) :
    (fallDetectionUpdate s p).lastAcc = s.lastAcc := by
  simp only [fallDetectionUpdate]; split_ifs <;> rfl

theorem det_lastFall (s : St) (p : Sample) :
    (fallDetectionUpdate s p).lastFall = s.lastFall := by
  simp only [fallDetectionUpdate]; split_ifs <;> rfl

theorem det_lastFallTime (s : St) (p : Sample) :
    (fallDetectionUpdate s p).lastFallTime = s.lastFallTime := by
  simp only [fallDetectionUpdate]; split_ifs <;> rfl

theorem det_closed (s : St) (p : Sample)
    (h : ¬ COOLDOWN_MS < p.t - s.lastFallTime) :
    fallDetectionUpdate s p = s := by
  simp only [fallDetectionUpdate, if_neg h]

theorem det_entry (s : St) (p : Sample)
    (hg : COOLDOWN_MS < p.t - s.lastFallTime)
    (hw : s.inLowWindow = false) (ha : p.acc < FALL_LOW_G) :
    fallDetectionUpdate s p =
      { s with inLowWindow := true, lastLowTime := p.t, lowEntryAcc := p.acc } := by
  simp only [fallDetectionUpdate, if_pos hg, if_pos (And.intro hw ha)]

theorem det_idle (s : St) (p : Sample)
    (hw : s.inLowWindow = false) (ha : ¬ p.acc < FALL_LOW_G) :
    fallDetectionUpdate s p = s := by
  simp only [fallDetectionUpdate]
  split_ifs with h1 h2 h3 <;> simp_all

theorem det_high (s : St) (p : Sample)
    (hg : COOLDOWN_MS < p.t - s.lastFallTime)
    (hw : s.inLowWindow = true) (ha : FALL_HIGH_G < p.acc) :
    fallDetectionUpdate s p = { s with fallDetected := true, inLowWindow := false } := by
  simp only [fallDetectionUpdate]
  split_ifs <;> simp_all

theorem det_keep (s : St) (p : Sample)
    (hg : COOLDOWN_MS < p.t - s.lastFallTime)
    (hw : s.inLowWindow = true) (ha : ¬ FALL_HIGH_G < p.acc)
    (ht : ¬ WINDOW_MS < p.t - s.lastLowTime) :
    fallDetectionUpdate s p = s := by
  simp only [fallDetectionUpdate]
  split_ifs <;> simp_all

theorem det_expire (s : St) (p : Sample)
    (hg : COOLDOWN_MS < p.t - s.lastFallTime)
    (hw : s.inLowWindow = true) (ha : ¬ FALL_HIGH_G < p.acc)
    (ht : WINDOW_MS < p.t - s.lastLowTime) :
    fallDetectionUpdate s p = { s with inLowWindow := false } := by
  simp only [fallDetectionUpdate]
  split_ifs <;> simp_all

theorem fev_none (s : St) (p : Sample) (h : s.fallDetected = false) :
    fallEventUpdate s p = s := by
  simp only [fallEventUpdate, h]; rfl

theorem fev_some (s : St) (p : Sample) (h : s.fallDetected = true) :
    fallEventUpdate s p =
      { s with lastFallTime := p.t, lastMovementTime := p.t,
               lastFall := ⟨p.t, p.acc, s.lowEntryAcc, p.t - s.lastLowTime, true⟩,
               fallDetected := false, inactivityTriggered := true,
               lastBuzzToggle := p.t } := by
  simp only [fallEventUpdate, h]; rfl

theorem fev_fallDetected (s : St) (p : Sample) :
    (fallEventUpdate s p).fallDetected = false := by
  simp only [fallEventUpdate]; split_ifs <;> simp_all

theorem ina_snd (s : St) (p : Sample) :
    (inactivityUpdate s p).2 =
      (s.inactivityTriggered &&
        decide (INACTIVITY_MS < p.t - s.lastMovementTime) &&
        decide (INACTIVITY_MS < p.t - s.lastBuzzToggle)) := by
  simp only [inactivityUpdate]
  split_ifs <;> simp_all

theorem ina_fst_lastBuzzToggle (s : St) (p : Sample) :
    (inactivityUpdate s p).1.lastBuzzToggle =
      if s.inactivityTriggered = true ∧ INACTIVITY_MS < p.t - s.lastMovementTime ∧
          INACTIVITY_MS < p.t - s.lastBuzzToggle then p.t else s.lastBuzzToggle := by
  simp only [inactivityUpdate]
  split_ifs <;> simp_all

theorem ina_fst_lastFallTime (s : St) (p : Sample) :
    (inactivityUpdate s p).1.lastFallTime = s.lastFallTime := by
  simp only [inactivityUpdate]; split_ifs <;> rfl

theorem ina_fst_lastLowTime (s : St) (p : Sample) :
    (inactivityUpdate s p).1.lastLowTime = s.lastLowTime := by
  simp only [inactivityUpdate]; split_ifs <;> rfl

theorem ina_fst_lastMovementTime (s : St) (p : Sample) :
    (inactivityUpdate s p).1.lastMovementTime = s.lastMovementTime := by
  simp only [inactivityUpdate]; split_ifs <;> rfl

theorem ina_fst_inLowWindow (s : St) (p : Sample) :
    (inactivityUpdate s p).1.inLowWindow = s.inLowWindow := by
  simp only [inactivityUpdate]; split_ifs <;> rfl

theorem ina_fst_fallDetected (s : St) (p : Sample) :
    (inactivityUpdate s p).1.fallDetected = s.fallDetected := by
  simp only [inactivityUpdate]; split_ifs <;> rfl

theorem ina_fst_inactivityTriggered (s : St) (p : Sample) :
    (inactivityUpdate s p).1.inactivityTriggered = s.inactivityTriggered := by
  simp only [inactivityUpdate]; split_ifs <;> rfl

theorem ina_fst_lastAcc (s : St) (p : Sample) :
    (inactivityUpdate s p).1.lastAcc = s.lastAcc := by
  simp only [inactivityUpdate]; split_ifs <;> rfl

theorem ina_fst_lowEntryAcc (s : St) (p : Sample) :
    (inactivityUpdate s p).1.lowEntryAcc = s.lowEntryAcc := by
  simp only [inactivityUpdate]; split_ifs <;> rfl

theorem ina_fst_lastFall (s : St) (p : Sample) :
    (inactivityUpdate s p).1.lastFall = s.lastFall := by
  simp only [inactivityUpdate]; split_ifs <;> rfl

theorem fev_inLowWindow (s : St) (p : Sample) :
    (fallEventUpdate s p).inLowWindow = s.inLowWindow := by
  simp only [fallEventUpdate]; split_ifs <;> rfl

/-! ## Step-level characterization lemmas -/

theorem step_fallDetected (s : St) (p : Sample) : (step s p).fallDetected = false := by
  simp only [step, ina_fst_fallDetected, fev_fallDetected]

theorem fallOut_eq (s : St) (p : Sample) :
    fallOut s p =
      (s.fallDetected ||
        (decide (COOLDOWN_MS < p.t - s.lastFallTime) && s.inLowWindow &&
          decide (FALL_HIGH_G < p.acc))) := by
  simp only [fallOut, det_fallDetected, movement_fallDetected, movement_lastFallTime,
    movement_inLowWindow]

/-- A step on which the detection block leaves the state unchanged (cooldown
gate closed, or no branch applies): only the movement-tracking and
inactivity-alert blocks act. -/
theorem noDet_step (s : St) (p : Sample) (hfd : s.fallDetected = false)
    (hdet : fallDetectionUpdate (movementUpdate s p) p = movementUpdate s p) :
    fallOut s p = false ∧
    (step s p).inLowWindow = s.inLowWindow ∧
    (step s p).lastLowTime = s.lastLowTime ∧
    (step s p).lastFallTime = s.lastFallTime ∧
    (step s p).fallDetected = false ∧
    (step s p).lowEntryAcc = s.lowEntryAcc ∧
    (step s p).lastFall = s.lastFall ∧
    (step s p).lastAcc = p.acc ∧
    (step s p).lastMovementTime =
      (if MOVEMENT_DELTA < |p.acc - s.lastAcc| then p.t else s.lastMovementTime) ∧
    (step s p).inactivityTriggered =
      (if MOVEMENT_DELTA < |p.acc - s.lastAcc| then false else s.inactivityTriggered) ∧
    alertOut s p =
      ((step s p).inactivityTriggered &&
        decide (INACTIVITY_MS < p.t - (step s p).lastMovementTime) &&
        decide (INACTIVITY_MS < p.t - s.lastBuzzToggle)) := by
  have hfev : fallEventUpdate (movementUpdate s p) p = movementUpdate s p :=
    fev_none _ _ (by rw [movement_fallDetected]; exact hfd)
  refine ⟨?_, ?_, ?_, ?_, ?_, ?_, ?_, ?_, ?_, ?_, ?_⟩ <;>
    simp only [step, fallOut, alertOut, hdet, hfev, ina_fst_inLowWindow,
      ina_fst_lastLowTime, ina_fst_lastFallTime, ina_fst_fallDetected,
      ina_fst_lowEntryAcc, ina_fst_lastFall, ina_fst_lastAcc,
      ina_fst_lastMovementTime, ina_fst_inactivityTriggered, ina_snd,
      movement_inLowWindow, movement_lastLowTime, movement_lastFallTime,
      movement_fallDetected, movement_lowEntryAcc, movement_lastFall,
      movement_lastAcc, movement_lastMovementTime, movement_inactivityTriggered,
      movement_lastBuzzToggle, hfd]

/-- A step processed while the cooldown gate is closed
(`now - lastFallTime <= COOLDOWN_MS`): the fall-detection state is frozen,
movement/inactivity tracking still runs. -/
theorem frozen_step (s : St) (p : Sample) (hfd : s.fallDetected = false)
    (hcd : p.t ≤ s.lastFallTime + COOLDOWN_MS) :
    fallOut s p = false ∧
    (step s p).inLowWindow = s.inLowWindow ∧
    (step s p).lastLowTime = s.lastLowTime ∧
    (step s p).lastFallTime = s.lastFallTime ∧
    (step s p).fallDetected = false ∧
    (step s p).lowEntryAcc = s.lowEntryAcc ∧
    (step s p).lastFall = s.lastFall ∧
    (step s p).lastAcc = p.acc ∧
    (step s p).lastMovementTime =
      (if MOVEMENT_DELTA < |p.acc - s.lastAcc| then p.t else s.lastMovementTime) ∧
    (step s p).inactivityTriggered =
      (if MOVEMENT_DELTA < |p.acc - s.lastAcc| then false else s.inactivityTriggered) ∧
    alertOut s p =
      ((step s p).inactivityTriggered &&
        decide (INACTIVITY_MS < p.t - (step s p).lastMovementTime) &&
        decide (INACTIVITY_MS < p.t - s.lastBuzzToggle)) := by
  refine noDet_step s p hfd (det_closed _ _ ?_)
  rw [movement_lastFallTime]
  simp only [COOLDOWN_MS] at *
  omega

/-- A step on which the magnitude does not dip below the low-g threshold and
the detector is not in a low-g window: detection does nothing. -/
theorem calm_step (s : St) (p : Sample) (hfd : s.fallDetected = false)
    (hlw : s.inLowWindow = false) (hacc : ¬ p.acc < FALL_LOW_G) :
    fallOut s p = false ∧
    (step s p).inLowWindow = s.inLowWindow ∧
    (step s p).lastLowTime = s.lastLowTime ∧
    (step s p).lastFallTime = s.lastFallTime ∧
    (step s p).fallDetected = false ∧
    (step s p).lowEntryAcc = s.lowEntryAcc ∧
    (step s p).lastFall = s.lastFall ∧
    (step s p).lastAcc = p.acc ∧
    (step s p).lastMovementTime =
      (if MOVEMENT_DELTA < |p.acc - s.lastAcc| then p.t else s.lastMovementTime) ∧
    (step s p).inactivityTriggered =
      (if MOVEMENT_DELTA < |p.acc - s.lastAcc| then false else s.inactivityTriggered) ∧
    alertOut s p =
      ((step s p).inactivityTriggered &&
        decide (INACTIVITY_MS < p.t - (step s p).lastMovementTime) &&
        decide (INACTIVITY_MS < p.t - s.lastBuzzToggle)) :=
  noDet_step s p hfd (det_idle _ _ (by rw [movement_inLowWindow]; exact hlw) hacc)

/-- A step in the low-g window that keeps the window open: gate open, no
high-g trigger, window not yet expired. -/
theorem lowKeep_step (s : St) (p : Sample) (hfd : s.fallDetected = false)
    (hw : s.inLowWindow = true) (hg : COOLDOWN_MS < p.t - s.lastFallTime)
    (hnh : ¬ FALL_HIGH_G < p.acc) (hnt : ¬ WINDOW_MS < p.t - s.lastLowTime) :
    fallOut s p = false ∧
    (step s p).inLowWindow = s.inLowWindow ∧
    (step s p).lastLowTime = s.lastLowTime ∧
    (step s p).lastFallTime = s.lastFallTime ∧
    (step s p).fallDetected = false ∧
    (step s p).lowEntryAcc = s.lowEntryAcc ∧
    (step s p).lastFall = s.lastFall ∧
    (step s p).lastAcc = p.acc ∧
    (step s p).lastMovementTime =
      (if MOVEMENT_DELTA < |p.acc - s.lastAcc| then p.t else s.lastMovementTime) ∧
    (step s p).inactivityTriggered =
      (if MOVEMENT_DELTA < |p.acc - s.lastAcc| then false else s.inactivityTriggered) ∧
    alertOut s p =
      ((step s p).inactivityTriggered &&
        decide (INACTIVITY_MS < p.t - (step s p).lastMovementTime) &&
        decide (INACTIVITY_MS < p.t - s.lastBuzzToggle)) := by
  refine noDet_step s p hfd (det_keep _ _ ?_ ?_ hnh ?_) <;>
    simp only [movement_lastFallTime, movement_inLowWindow, movement_lastLowTime] <;>
    assumption

/-- The step that completes a fall detection: the fall-event block runs and
seeds the cooldown and the inactivity tracker. -/
theorem fall_step (s : St) (p : Sample) (hfd : s.fallDetected = false)
    (hout : fallOut s p = true) :
    (step s p).lastFallTime = p.t ∧
    (step s p).lastMovementTime = p.t ∧
    (step s p).lastBuzzToggle = p.t ∧
    (step s p).inactivityTriggered = true ∧
    (step s p).inLowWindow = false ∧
    (step s p).fallDetected = false ∧
    (step s p).lastAcc = p.acc ∧
    (step s p).lastLowTime = s.lastLowTime ∧
    (step s p).lowEntryAcc = s.lowEntryAcc ∧
    (step s p).lastFall = ⟨p.t, p.acc, s.lowEntryAcc, p.t - s.lastLowTime, true⟩ ∧
    alertOut s p = false := by
  rw [fallOut_eq, hfd] at hout
  simp only [Bool.false_or, Bool.and_eq_true, decide_eq_true_eq] at hout
  obtain ⟨⟨hg, hw⟩, hh⟩ := hout
  have hdet : fallDetectionUpdate (movementUpdate s p) p =
      { movementUpdate s p with fallDetected := true, inLowWindow := false } :=
    det_high _ _ (by rw [movement_lastFallTime]; exact hg)
      (by rw [movement_inLowWindow]; exact hw) hh
  have hfev : fallEventUpdate (fallDetectionUpdate (movementUpdate s p) p) p =
      { movementUpdate s p with
          lastFallTime := p.t, lastMovementTime := p.t,
          lastFall := ⟨p.t, p.acc, s.lowEntryAcc, p.t - s.lastLowTime, true⟩,
          fallDetected := false, inactivityTriggered := true,
          lastBuzzToggle := p.t, inLowWindow := false } := by
    rw [hdet, fev_some _ _ rfl]
    simp only [movement_lowEntryAcc, movement_lastLowTime]
  have hna : ¬ (INACTIVITY_MS < p.t - p.t) := by omega
  refine ⟨?_, ?_, ?_, ?_, ?_, ?_, ?_, ?_, ?_, ?_, ?_⟩ <;>
    simp only [step, alertOut, hfev, ina_fst_lastFallTime, ina_fst_lastMovementTime,
      ina_fst_lastBuzzToggle, ina_fst_inactivityTriggered, ina_fst_inLowWindow,
      ina_fst_fallDetected, ina_fst_lastAcc, ina_fst_lastLowTime, ina_fst_lowEntryAcc,
      ina_fst_lastFall, ina_snd, movement_lastAcc, movement_lastLowTime,
      movement_lowEntryAcc] <;>
    simp [hna]

/-- The step that enters the low-g window. -/
theorem lowEntry_step (s : St) (p : Sample) (hfd : s.fallDetected = false)
    (hlw : s.inLowWindow = false) (hacc : p.acc < FALL_LOW_G)
    (hg : COOLDOWN_MS < p.t - s.lastFallTime) :
    fallOut s p = false ∧
    (step s p).inLowWindow = true ∧
    (step s p).lastLowTime = p.t ∧
    (step s p).lowEntryAcc = p.acc ∧
    (step s p).lastFallTime = s.lastFallTime ∧
    (step s p).fallDetected = false ∧
    (step s p).lastAcc = p.acc := by
  have hdet : fallDetectionUpdate (movementUpdate s p) p =
      { movementUpdate s p with
          inLowWindow := true, lastLowTime := p.t, lowEntryAcc := p.acc } :=
    det_entry _ _ (by rw [movement_lastFallTime]; exact hg)
      (by rw [movement_inLowWindow]; exact hlw) hacc
  have hfd2 : (fallDetectionUpdate (movementUpdate s p) p).fallDetected = false := by
    rw [hdet]
    show (movementUpdate s p).fallDetected = false
    rw [movement_fallDetected]; exact hfd
  have hfev : fallEventUpdate (fallDetectionUpdate (movementUpdate s p) p) p =
      fallDetectionUpdate (movementUpdate s p) p := fev_none _ _ hfd2
  refine ⟨hfd2, ?_, ?_, ?_, ?_, ?_, ?_⟩ <;>
    · simp only [step]
      rw [hfev, hdet]
      simp [ina_fst_inLowWindow, ina_fst_lastLowTime, ina_fst_lowEntryAcc,
        ina_fst_lastFallTime, ina_fst_fallDetected, ina_fst_lastAcc,
        movement_lastFallTime, movement_fallDetected, movement_lastAcc, hfd]

/-- The step on which the low-g window expires without a high-g trigger. -/
theorem lowExpire_step (s : St) (p : Sample) (hfd : s.fallDetected = false)
    (hw : s.inLowWindow = true) (hg : COOLDOWN_MS < p.t - s.lastFallTime)
    (hnh : ¬ FALL_HIGH_G < p.acc) (ht : WINDOW_MS < p.t - s.lastLowTime) :
    fallOut s p = false ∧
    (step s p).inLowWindow = false ∧
    (step s p).lastFallTime = s.lastFallTime ∧
    (step s p).fallDetected = false := by
  have hdet : fallDetectionUpdate (movementUpdate s p) p =
      { movementUpdate s p with inLowWindow := false } :=
    det_expire _ _ (by rw [movement_lastFallTime]; exact hg)
      (by rw [movement_inLowWindow]; exact hw) hnh
      (by rw [movement_lastLowTime]; exact ht)
  have hfd2 : (fallDetectionUpdate (movementUpdate s p) p).fallDetected = false := by
    rw [hdet]
    show (movementUpdate s p).fallDetected = false
    rw [movement_fallDetected]; exact hfd
  have hfev : fallEventUpdate (fallDetectionUpdate (movementUpdate s p) p) p =
      fallDetectionUpdate (movementUpdate s p) p := fev_none _ _ hfd2
  refine ⟨hfd2, ?_, ?_, ?_⟩ <;>
    · simp only [step]
      rw [hfev, hdet]
      simp [ina_fst_inLowWindow, ina_fst_lastFallTime, ina_fst_fallDetected,
        movement_lastFallTime, movement_fallDetected, hfd]

/-- The low-g window flag can only turn on at a sample whose magnitude is
below the low-g threshold. -/
theorem inLow_flip (s : St) (p : Sample) (hlw : s.inLowWindow = false)
    (hlw' : (step s p).inLowWindow = true) : p.acc < FALL_LOW_G := by
  by_contra hacc
  have hdet : fallDetectionUpdate (movementUpdate s p) p = movementUpdate s p :=
    det_idle _ _ (by rw [movement_inLowWindow]; exact hlw) hacc
  rw [step, ina_fst_inLowWindow, fev_inLowWindow, hdet, movement_inLowWindow,
    hlw] at hlw'
  exact Bool.false_ne_true hlw'

/-- On a step where detection does nothing, `lastBuzzToggle` changes exactly
when the inactivity alert fires. -/
theorem noDet_buzz (s : St) (p : Sample) (hfd : s.fallDetected = false)
    (hdet : fallDetectionUpdate (movementUpdate s p) p = movementUpdate s p) :
    (step s p).lastBuzzToggle =
      (if alertOut s p = true then p.t else s.lastBuzzToggle) := by
  have hfev : fallEventUpdate (movementUpdate s p) p = movementUpdate s p :=
    fev_none _ _ (by rw [movement_fallDetected]; exact hfd)
  simp only [step, alertOut, hdet, hfev, ina_fst_lastBuzzToggle, ina_snd,
    movement_lastBuzzToggle, Bool.and_eq_true, decide_eq_true_eq]
  split_ifs with h1 h2 h2 <;> first
    | rfl
    | (exact absurd ⟨⟨h1.1, h1.2.1⟩, h1.2.2⟩ h2)
    | (exact absurd ⟨h2.1.1, h2.1.2, h2.2⟩ h1)

theorem calm_buzz (s : St) (p : Sample) (hfd : s.fallDetected = false)
    (hlw : s.inLowWindow = false) (hacc : ¬ p.acc < FALL_LOW_G) :
    (step s p).lastBuzzToggle =
      (if alertOut s p = true then p.t else s.lastBuzzToggle) :=
  noDet_buzz s p hfd (det_idle _ _ (by rw [movement_inLowWindow]; exact hlw) hacc)

/-! ## Trace-level lemmas (induction over sample lists) -/

theorem run_nil (s : St) : run s [] = s := rfl

theorem run_cons (s : St) (p : Sample) (l : List Sample) :
    run s (p :: l) = run (step s p) l := rfl

theorem run_fd (l : List Sample) (s : St) (hfd : s.fallDetected = false) :
    (run s l).fallDetected = false := by
  induction l generalizing s with
  | nil => exact hfd
  | cons p l ih => rw [run_cons]; exact ih _ (step_fallDetected s p)

/-- While every processed sample still lies inside the cooldown window of
`s.lastFallTime`, the fall-detection state stays frozen and no sample is
detected as a fall. -/
theorem cooldown_run (l : List Sample) (s : St) (hfd : s.fallDetected = false)
    (hl : ∀ c ∈ l, c.t ≤ s.lastFallTime + COOLDOWN_MS) :
    (run s l).lastFallTime = s.lastFallTime ∧ (run s l).fallDetected = false ∧
    ∀ l₁ c l₂, l = l₁ ++ c :: l₂ → fallOut (run s l₁) c = false := by
  induction l generalizing s with
  | nil =>
    refine ⟨rfl, hfd, ?_⟩
    intro l₁ c l₂ h
    exact absurd h (by simp)
  | cons p l ih =>
    have hp : p.t ≤ s.lastFallTime + COOLDOWN_MS := hl p (List.mem_cons_self p l)
    obtain ⟨hout, _, _, hft', hfd', _⟩ := frozen_step s p hfd hp
    have ihres := ih (step s p) hfd'
      (by intro c hc; rw [hft']; exact hl c (List.mem_cons_of_mem p hc))
    refine ⟨by rw [run_cons, ihres.1, hft'], by rw [run_cons]; exact ihres.2.1, ?_⟩
    intro l₁ c l₂ h
    match l₁, h with
    | [], h =>
      obtain ⟨h1, _⟩ := List.cons.injEq .. ▸ h
      rw [run_nil, ← h1]
      exact hout
    | a :: l₁', h =>
      obtain ⟨h1, h2⟩ := List.cons.injEq .. ▸ h
      rw [← h1, run_cons]
      exact ihres.2.2 l₁' c l₂ h2

/-- While the detector is out of the low-g window and no sample dips below
the low-g threshold, the detection state machine is inert. -/
theorem calm_run (l : List Sample) (s : St) (hfd : s.fallDetected = false)
    (hlw : s.inLowWindow = false) (hl : ∀ c ∈ l, ¬ c.acc < FALL_LOW_G) :
    (run s l).inLowWindow = false ∧ (run s l).fallDetected = false ∧
    (run s l).lastFallTime = s.lastFallTime ∧
    ∀ l₁ c l₂, l = l₁ ++ c :: l₂ → fallOut (run s l₁) c = false := by
  induction l generalizing s with
  | nil =>
    refine ⟨hlw, hfd, rfl, ?_⟩
    intro l₁ c l₂ h
    exact absurd h (by simp)
  | cons p l ih =>
    have hp : ¬ p.acc < FALL_LOW_G := hl p (List.mem_cons_self p l)
    obtain ⟨hout, hw', _, hft', hfd', _⟩ := calm_step s p hfd hlw hp
    have ihres := ih (step s p) hfd' (by rw [hw']; exact hlw)
      (by intro c hc; exact hl c (List.mem_cons_of_mem p hc))
    refine ⟨by rw [run_cons]; exact ihres.1, by rw [run_cons]; exact ihres.2.1,
      by rw [run_cons, ihres.2.2.1, hft'], ?_⟩
    intro l₁ c l₂ h
    match l₁, h with
    | [], h =>
      obtain ⟨h1, _⟩ := List.cons.injEq .. ▸ h
      rw [run_nil, ← h1]
      exact hout
    | a :: l₁', h =>
      obtain ⟨h1, h2⟩ := List.cons.injEq .. ▸ h
      rw [← h1, run_cons]
      exact ihres.2.2.2 l₁' c l₂ h2

/-- Once the `inactivityTriggered` flag is off, it stays off (absent new
falls, which require a low-g dip first) and no inactivity alert can fire. -/
theorem trigoff_run (l : List Sample) (s : St) (hfd : s.fallDetected = false)
    (hlw : s.inLowWindow = false) (htrig : s.inactivityTriggered = false)
    (hl : ∀ c ∈ l, ¬ c.acc < FALL_LOW_G) :
    (run s l).inactivityTriggered = false ∧ (run s l).inLowWindow = false ∧
    (run s l).fallDetected = false ∧
    ∀ l₁ c l₂, l = l₁ ++ c :: l₂ → alertOut (run s l₁) c = false := by
  induction l generalizing s with
  | nil =>
    refine ⟨htrig, hlw, hfd, ?_⟩
    intro l₁ c l₂ h
    exact absurd h (by simp)
  | cons p l ih =>
    have hp : ¬ p.acc < FALL_LOW_G := hl p (List.mem_cons_self p l)
    obtain ⟨hout, hw', _, hft', hfd', _, _, _, hM', htr', halert⟩ :=
      calm_step s p hfd hlw hp
    have htrig' : (step s p).inactivityTriggered = false := by
      rw [htr', htrig, ite_self]
    have haF : alertOut s p = false := by
      rw [halert, htrig']
      simp
    have ihres := ih (step s p) hfd' (by rw [hw']; exact hlw) htrig'
      (by intro c hc; exact hl c (List.mem_cons_of_mem p hc))
    refine ⟨by rw [run_cons]; exact ihres.1, by rw [run_cons]; exact ihres.2.1,
      by rw [run_cons]; exact ihres.2.2.1, ?_⟩
    intro l₁ c l₂ h
    match l₁, h with
    | [], h =>
      obtain ⟨h1, _⟩ := List.cons.injEq .. ▸ h
      rw [run_nil, ← h1]
      exact haF
    | a :: l₁', h =>
      obtain ⟨h1, h2⟩ := List.cons.injEq .. ▸ h
      rw [← h1, run_cons]
      exact ihres.2.2.2 l₁' c l₂ h2

/-- As long as every sample stays within the inactivity timeout of a lower
bound `T` on `lastMovementTime`, no inactivity alert can fire. -/
theorem mbound_run (T : ℕ) (l : List Sample) (s : St) (hfd : s.fallDetected = false)
    (hlw : s.inLowWindow = false) (hM : T ≤ s.lastMovementTime)
    (hl : ∀ c ∈ l, ¬ c.acc < FALL_LOW_G ∧ T ≤ c.t ∧ c.t ≤ T + INACTIVITY_MS) :
    T ≤ (run s l).lastMovementTime ∧ (run s l).inLowWindow = false ∧
    (run s l).fallDetected = false ∧
    ∀ l₁ c l₂, l = l₁ ++ c :: l₂ → alertOut (run s l₁) c = false := by
  induction l generalizing s with
  | nil =>
    refine ⟨hM, hlw, hfd, ?_⟩
    intro l₁ c l₂ h
    exact absurd h (by simp)
  | cons p l ih =>
    obtain ⟨hp1, hp2, hp3⟩ := hl p (List.mem_cons_self p l)
    obtain ⟨hout, hw', _, hft', hfd', _, _, _, hM', htr', halert⟩ :=
      calm_step s p hfd hlw hp1
    have hM2 : T ≤ (step s p).lastMovementTime := by
      rw [hM']; split_ifs
      · exact hp2
      · exact hM
    have hdec : decide (INACTIVITY_MS < p.t - (step s p).lastMovementTime) = false := by
      apply decide_eq_false
      rw [hM']
      split_ifs with h
      · simp only [INACTIVITY_MS] at *
        omega
      · simp only [INACTIVITY_MS] at *
        omega
    have haF : alertOut s p = false := by
      rw [halert, hdec]
      simp
    have ihres := ih (step s p) hfd' (by rw [hw']; exact hlw) hM2
      (by intro c hc; exact hl c (List.mem_cons_of_mem p hc))
    refine ⟨by rw [run_cons]; exact ihres.1, by rw [run_cons]; exact ihres.2.1,
      by rw [run_cons]; exact ihres.2.2.1, ?_⟩
    intro l₁ c l₂ h
    match l₁, h with
    | [], h =>
      obtain ⟨h1, _⟩ := List.cons.injEq .. ▸ h
      rw [run_nil, ← h1]
      exact haF
    | a :: l₁', h =>
      obtain ⟨h1, h2⟩ := List.cons.injEq .. ▸ h
      rw [← h1, run_cons]
      exact ihres.2.2.2 l₁' c l₂ h2

/-- A quiet stretch after a fall: no per-sample movement above the delta
threshold, no low-g dip, and all samples within the re-alert interval of
`lastBuzzToggle` — the inactivity tracker is preserved verbatim and no alert
fires. -/
theorem nomove_run (l : List Sample) (s : St) (hfd : s.fallDetected = false)
    (hlw : s.inLowWindow = false) (htrig : s.inactivityTriggered = true)
    (hchain : List.Chain (fun x y => ¬ MOVEMENT_DELTA < |y - x|) s.lastAcc
      (l.map Sample.acc))
    (hl : ∀ c ∈ l, ¬ c.acc < FALL_LOW_G ∧ c.t ≤ s.lastBuzzToggle + INACTIVITY_MS) :
    (run s l).inactivityTriggered = true ∧
    (run s l).lastMovementTime = s.lastMovementTime ∧
    (run s l).lastBuzzToggle = s.lastBuzzToggle ∧
    (run s l).inLowWindow = false ∧ (run s l).fallDetected = false ∧
    (run s l).lastAcc = (l.map Sample.acc).getLastD s.lastAcc ∧
    ∀ l₁ c l₂, l = l₁ ++ c :: l₂ → alertOut (run s l₁) c = false := by
  induction l generalizing s with
  | nil =>
    refine ⟨htrig, rfl, rfl, hlw, hfd, rfl, ?_⟩
    intro l₁ c l₂ h
    exact absurd h (by simp)
  | cons p l ih =>
    obtain ⟨hp1, hp2⟩ := hl p (List.mem_cons_self p l)
    rw [List.map_cons, List.chain_cons] at hchain
    obtain ⟨hδ, hchain'⟩ := hchain
    obtain ⟨hout, hw', _, hft', hfd', _, _, hacc', hM', htr', halert⟩ :=
      calm_step s p hfd hlw hp1
    have hM2 : (step s p).lastMovementTime = s.lastMovementTime := by
      rw [hM', if_neg hδ]
    have htr2 : (step s p).inactivityTriggered = true := by
      rw [htr', if_neg hδ]; exact htrig
    have hBdec : decide (INACTIVITY_MS < p.t - s.lastBuzzToggle) = false := by
      apply decide_eq_false
      omega
    have haF : alertOut s p = false := by
      rw [halert, hBdec, Bool.and_false]
    have hB2 : (step s p).lastBuzzToggle = s.lastBuzzToggle := by
      rw [calm_buzz s p hfd hlw hp1, haF]
      simp
    have ihres := ih (step s p) hfd' (by rw [hw']; exact hlw) htr2
      (by rw [hacc']; exact hchain')
      (by intro c hc
          refine ⟨(hl c (List.mem_cons_of_mem p hc)).1, ?_⟩
          rw [hB2]
          exact (hl c (List.mem_cons_of_mem p hc)).2)
    refine ⟨by rw [run_cons]; exact ihres.1,
      by rw [run_cons, ihres.2.1, hM2],
      by rw [run_cons, ihres.2.2.1, hB2],
      by rw [run_cons]; exact ihres.2.2.2.1,
      by rw [run_cons]; exact ihres.2.2.2.2.1,
      by rw [run_cons, ihres.2.2.2.2.2.1, hacc', List.map_cons, List.getLastD_cons],
      ?_⟩
    intro l₁ c l₂ h
    match l₁, h with
    | [], h =>
      obtain ⟨h1, _⟩ := List.cons.injEq .. ▸ h
      rw [run_nil, ← h1]
      exact haF
    | a :: l₁', h =>
      obtain ⟨h1, h2⟩ := List.cons.injEq .. ▸ h
      rw [← h1, run_cons]
      exact ihres.2.2.2.2.2.2 l₁' c l₂ h2

/-- The step on which a pending inactivity alert actually fires. -/
theorem alert_fire_step (s : St) (p : Sample) (hfd : s.fallDetected = false)
    (hlw : s.inLowWindow = false) (htrig : s.inactivityTriggered = true)
    (hδ : ¬ MOVEMENT_DELTA < |p.acc - s.lastAcc|) (hacc : ¬ p.acc < FALL_LOW_G)
    (hM : INACTIVITY_MS < p.t - s.lastMovementTime)
    (hB : INACTIVITY_MS < p.t - s.lastBuzzToggle) :
    alertOut s p = true ∧ (step s p).lastBuzzToggle = p.t ∧
    (step s p).inactivityTriggered = true ∧
    (step s p).lastMovementTime = s.lastMovementTime ∧
    (step s p).inLowWindow = false ∧ (step s p).fallDetected = false ∧
    (step s p).lastAcc = p.acc ∧ (step s p).lastFallTime = s.lastFallTime := by
  obtain ⟨hout, hw', _, hft', hfd', _, _, hacc', hM', htr', halert⟩ :=
    calm_step s p hfd hlw hacc
  have hM2 : (step s p).lastMovementTime = s.lastMovementTime := by
    rw [hM', if_neg hδ]
  have htr2 : (step s p).inactivityTriggered = true := by
    rw [htr', if_neg hδ]; exact htrig
  have haT : alertOut s p = true := by
    rw [halert, htr2, hM2]
    simp only [Bool.true_and, Bool.and_eq_true, decide_eq_true_eq]
    exact ⟨hM, hB⟩
  refine ⟨haT, ?_, htr2, hM2, by rw [hw']; exact hlw, hfd', hacc',
    hft'⟩
  rw [calm_buzz s p hfd hlw hacc, haT]
  simp

/-- While inside the low-g window — gate open, timestamps within the
detection window, no high-g trigger — the window state is preserved and no
fall fires. -/
theorem low_run (T F : ℕ) (l : List Sample) (s : St) (hfd : s.fallDetected = false)
    (hw : s.inLowWindow = true) (hT : s.lastLowTime = T) (hF : s.lastFallTime = F)
    (hgate : F + COOLDOWN_MS < T)
    (hl : ∀ c ∈ l, T ≤ c.t ∧ c.t ≤ T + WINDOW_MS ∧ ¬ FALL_HIGH_G < c.acc) :
    (run s l).inLowWindow = true ∧ (run s l).lastLowTime = T ∧
    (run s l).lastFallTime = F ∧ (run s l).fallDetected = false ∧
    ∀ l₁ c l₂, l = l₁ ++ c :: l₂ → fallOut (run s l₁) c = false := by
  induction l generalizing s with
  | nil =>
    refine ⟨hw, hT, hF, hfd, ?_⟩
    intro l₁ c l₂ h
    exact absurd h (by simp)
  | cons p l ih =>
    obtain ⟨hp1, hp2, hp3⟩ := hl p (List.mem_cons_self p l)
    have hg : COOLDOWN_MS < p.t - s.lastFallTime := by
      rw [hF]
      omega
    have hnt : ¬ WINDOW_MS < p.t - s.lastLowTime := by
      rw [hT]
      omega
    obtain ⟨hout, hw', hlt', hft', hfd', _⟩ := lowKeep_step s p hfd hw hg hp3 hnt
    have ihres := ih (step s p) hfd' (by rw [hw']; exact hw)
      (by rw [hlt']; exact hT) (by rw [hft']; exact hF)
      (by intro c hc; exact hl c (List.mem_cons_of_mem p hc))
    refine ⟨by rw [run_cons]; exact ihres.1, by rw [run_cons]; exact ihres.2.1,
      by rw [run_cons]; exact ihres.2.2.1, by rw [run_cons]; exact ihres.2.2.2.1, ?_⟩
    intro l₁ c l₂ h
    match l₁, h with
    | [], h =>
      obtain ⟨h1, _⟩ := List.cons.injEq .. ▸ h
      rw [run_nil, ← h1]
      exact hout
    | a :: l₁', h =>
      obtain ⟨h1, h2⟩ := List.cons.injEq .. ▸ h
      rw [← h1, run_cons]
      exact ihres.2.2.2.2 l₁' c l₂ h2

/-- If the low-g window flag got set somewhere along a run, some sample of
the run dipped below the low-g threshold. -/
theorem lowAppears_run (l : List Sample) (s : St) (hlw : s.inLowWindow = false)
    (h : (run s l).inLowWindow = true) : ∃ c ∈ l, c.acc < FALL_LOW_G := by
  induction l generalizing s with
  | nil =>
    rw [run_nil, hlw] at h
    exact absurd h (by simp)
  | cons p l ih =>
    by_cases hlw2 : (step s p).inLowWindow = true
    · exact ⟨p, List.mem_cons_self p l, inLow_flip s p hlw hlw2⟩
    · simp only [Bool.not_eq_true] at hlw2
      obtain ⟨c, hc, hcacc⟩ := ih (step s p) hlw2 (by rw [run_cons] at h; exact h)
      exact ⟨c, List.mem_cons_of_mem p hc, hcacc⟩

theorem run_path (pre : List Sample) (a : Sample) (l : List Sample) :
    run boot (pre ++ a :: l) = run (step (run boot pre) a) l := by
  rw [run_append, run_cons]

/-- After a fall on sample `a`, as long as the subsequent samples stay
within `cooldownMs` of `a.t` (which the monotone clock guarantees whenever
the candidate sample does), none of them is detected as a fall. -/
theorem fall_then_cooldown (pre : List Sample) (a : Sample) (mid : List Sample)
    (b : Sample) (hfall : fallOut (run boot pre) a = true)
    (hmid : ∀ c ∈ mid, c.t ≤ a.t + COOLDOWN_MS)
    (hb : b.t ≤ a.t + COOLDOWN_MS) :
    fallOut (run boot (pre ++ a :: mid)) b = false := by
  have hfd : (run boot pre).fallDetected = false := run_fd pre boot rfl
  obtain ⟨hft, -⟩ := fall_step (run boot pre) a hfd hfall
  have hcool := cooldown_run mid (step (run boot pre) a) (step_fallDetected _ _)
    (by intro c hc; rw [hft]; exact hmid c hc)
  rw [run_path]
  have hft2 : (run (step (run boot pre) a) mid).lastFallTime = a.t := by
    rw [hcool.1, hft]
  exact (frozen_step _ b hcool.2.1 (by rw [hft2]; exact hb)).1

/-- The chain relation along `l ++ [b]` splits into the chain along `l` and
one final link from the last element (default `a`) to `b`. -/
theorem chain_append_singleton {α : Type} (R : α → α → Prop) (a : α)
    (l : List α) (b : α) :
    List.Chain R a (l ++ [b]) ↔ List.Chain R a l ∧ R (l.getLastD a) b := by
  induction l generalizing a with
  | nil => simp [List.Chain]
  | cons x l ih =>
    simp only [List.cons_append, List.chain_cons, List.getLastD_cons, ih,
      and_assoc]

/-! ## Claims -/

/-- Claim C1, counterexample: on the Scenario A trace at its literal
timestamps (t=0 at 1.0g, t=50 at 0.2g, t=100 at 0.25g, t=150 at 3.0g), the
update at t=150 does NOT return true — `lastFallTime` boots at 0, so every
sample with `t ≤ cooldownMs` is swallowed by the implicit boot cooldown, the
low-g window is never entered, and no fall event is recorded. -/
theorem claimC1_counterexample :
    fallOut (run boot [⟨0, 100⟩, ⟨50, 20⟩, ⟨100, 25⟩]) ⟨150, 300⟩ = false ∧
    (run boot trScenarioA).inLowWindow = false ∧
    (run boot trScenarioA).lastFall = fallEventSentinel := by decide

/-- Claim C1, amended: the Scenario A pattern shifted past the boot cooldown
(offset +1100 ms, same inter-sample spacing) behaves as the claim says: the
update at the 3.0g sample (t=1250) returns true and the recorded fall event
has minAcceleration 0.2g (= 20 centi-g), maxAcceleration 3.0g (= 300),
duration 100 ms. -/
theorem claimC1_scenarioA :
    fallOut (run boot [⟨1100, 100⟩, ⟨1150, 20⟩, ⟨1200, 25⟩]) ⟨1250, 300⟩ = true ∧
    (run boot trScenarioAShift).lastFall = ⟨1250, 300, 20, 100, true⟩ := by decide

/-- Claim C2: after a fall is detected on sample `a` (time T), no sample `b`
with timestamp in `(T, T + cooldownMs]` is detected as a new fall, whatever
its magnitude.  The samples between `a` and `b` carry timestamps `≤ b.t`
by the spec's monotone-clock contract, stated here as the explicit
hypothesis `hmid`. -/
theorem claimC2_cooldownEnforced (pre : List Sample) (a : Sample)
    (mid : List Sample) (b : Sample)
    (hfall : fallOut (run boot pre) a = true)
    (hmid : ∀ c ∈ mid, c.t ≤ a.t + COOLDOWN_MS)
    (_hlo : a.t < b.t) (hhi : b.t ≤ a.t + COOLDOWN_MS) :
    fallOut (run boot (pre ++ a :: mid)) b = false :=
  fall_then_cooldown pre a mid b hfall hmid hhi

/-- Witness for C2: the fall at t=1002; a 3.0g spike at t=1500 (inside the
cooldown) is not detected. -/
theorem claimC2_witness :
    fallOut (run boot [Sample.mk 1001 20]) ⟨1002, 300⟩ = true ∧
    (1002 : ℕ) < 1500 ∧ (1500 : ℕ) ≤ 1002 + COOLDOWN_MS ∧
    fallOut (run boot ([⟨1001, 20⟩] ++ ⟨1002, 300⟩ :: [])) ⟨1500, 300⟩ = false :=
  ⟨by decide, by decide, by decide,
    claimC2_cooldownEnforced [⟨1001, 20⟩] ⟨1002, 300⟩ [] ⟨1500, 300⟩
      (by decide) (fun c hc => absurd hc (List.not_mem_nil c)) (by decide)
      (by decide)⟩

/-- Claim C8: in the trace of Scenario A extended by a second high-g spike
at t=1500, the update at t=1500 does not return true (no second detection).
It holds, though vacuously with respect to the spec's narrative: the t=150
fall itself never happens (boot cooldown, claim C10), the state is Normal
and a 3.0g sample cannot enter the low-g window, so no sample of the trace
is ever detected. -/
theorem claimC8_scenarioD :
    fallOut (run boot trScenarioA) ⟨1500, 300⟩ = false ∧
    outs boot trScenarioD = [(false, false), (false, false), (false, false),
      (false, false), (false, false)] := by decide

/-- Claim C9: `reset()` is idempotent — applying it twice equals applying it
once — and the reset detector has state machine `Normal`, sentinel
`getLastFall()`, `isInCooldown() = false`, an empty history buffer, and a
cleared inactivity tracker. -/
theorem claimC9_resetIdempotent (d : FallDetector) :
    d.reset.reset = d.reset ∧
    d.reset.currentState = FallDetectionState.normal ∧
    d.reset.getLastFall = fallEventSentinel ∧
    d.reset.isInCooldown = false ∧
    d.reset.accelHistory = [] ∧
    d.reset.lastMovementTimestamp = 0 ∧
    d.reset.triggered = false ∧
    d.reset.lastAlertTimestamp = 0 :=
  ⟨rfl, rfl, rfl, rfl, rfl, rfl, rfl, rfl⟩

/-- Claim C10: because `lastFallTime` is initialized to 0, no fall can be
detected on any sample whose timestamp is at most `cooldownMs` after the
clock origin, whatever the samples' magnitudes: the system boots inside an
implicit cooldown window. -/
theorem claimC10_bootCooldown (tr : List Sample)
    (h : ∀ p ∈ tr, p.t ≤ COOLDOWN_MS) :
    ∀ l₁ c l₂, tr = l₁ ++ c :: l₂ → fallOut (run boot l₁) c = false := by
  have hb : ∀ p ∈ tr, p.t ≤ boot.lastFallTime + COOLDOWN_MS := by
    intro p hp
    have := h p hp
    simp only [boot]
    omega
  exact (cooldown_run tr boot rfl hb).2.2

/-- Witness for C10: a valid low-then-high fall pattern entirely within the
first `cooldownMs` milliseconds is not detected. -/
theorem claimC10_witness :
    (∀ p ∈ ([⟨0, 100⟩, ⟨50, 20⟩, ⟨150, 300⟩] : List Sample), p.t ≤ COOLDOWN_MS) ∧
    fallOut (run boot [⟨0, 100⟩, ⟨50, 20⟩]) ⟨150, 300⟩ = false :=
  ⟨by decide,
    claimC10_bootCooldown [⟨0, 100⟩, ⟨50, 20⟩, ⟨150, 300⟩] (by decide)
      [⟨0, 100⟩, ⟨50, 20⟩] ⟨150, 300⟩ [] rfl⟩

/-- Claim C7: for a sample processed within `cooldownMs` of the last
detected fall, the fall-detection state is frozen — low-g window flag, low-g
start time, last-fall time and fall-detected flag unchanged — while
movement/inactivity tracking still updates: `lastMovementTime` and the
`inactivityTriggered` flag follow the movement-delta rule, and the
inactivity alert fires according to the updated tracker. -/
theorem claimC7_cooldownFrame (tr : List Sample) (p : Sample)
    (h : p.t ≤ (run boot tr).lastFallTime + COOLDOWN_MS) :
    fallOut (run boot tr) p = false ∧
    (step (run boot tr) p).inLowWindow = (run boot tr).inLowWindow ∧
    (step (run boot tr) p).lastLowTime = (run boot tr).lastLowTime ∧
    (step (run boot tr) p).lastFallTime = (run boot tr).lastFallTime ∧
    (step (run boot tr) p).fallDetected = (run boot tr).fallDetected ∧
    (step (run boot tr) p).lastMovementTime =
      (if MOVEMENT_DELTA < |p.acc - (run boot tr).lastAcc| then p.t
        else (run boot tr).lastMovementTime) ∧
    (step (run boot tr) p).inactivityTriggered =
      (if MOVEMENT_DELTA < |p.acc - (run boot tr).lastAcc| then false
        else (run boot tr).inactivityTriggered) ∧
    alertOut (run boot tr) p =
      ((step (run boot tr) p).inactivityTriggered &&
        decide (INACTIVITY_MS < p.t - (step (run boot tr) p).lastMovementTime) &&
        decide (INACTIVITY_MS < p.t - (run boot tr).lastBuzzToggle)) := by
  have hfd : (run boot tr).fallDetected = false := run_fd tr boot rfl
  obtain ⟨h1, h2, h3, h4, h5, -, -, -, h9, h10, h11⟩ :=
    frozen_step (run boot tr) p hfd h
  exact ⟨h1, h2, h3, h4, by rw [h5, hfd], h9, h10, h11⟩

/-- Witness for C7: a 3.0g spike at t=1500, inside the cooldown of the fall
at t=1002, is not detected as a fall. -/
theorem claimC7_witness :
    (1500 : ℕ) ≤ (run boot [⟨1001, 20⟩, ⟨1002, 300⟩]).lastFallTime + COOLDOWN_MS ∧
    fallOut (run boot [⟨1001, 20⟩, ⟨1002, 300⟩]) ⟨1500, 300⟩ = false :=
  ⟨by decide,
    (claimC7_cooldownFrame [⟨1001, 20⟩, ⟨1002, 300⟩] ⟨1500, 300⟩ (by decide)).1⟩

/-- Claim C3, counterexample: the magnitude dips below the low-g threshold
at T=1150 (entering the low-g window) and no sample before T+300 ms exceeds
the high-g threshold, yet a fall IS produced for that dip: the high-g check
runs before the window-expiry check, so a 3.0g sample arriving at t=1600 —
after the window expired, but as the first sample processed while the flag
is still set — triggers a detection. -/
theorem claimC3_counterexample :
    (run boot [⟨1100, 100⟩]).inLowWindow = false ∧
    (run boot [⟨1100, 100⟩, ⟨1150, 20⟩]).inLowWindow = true ∧
    (run boot [⟨1100, 100⟩, ⟨1150, 20⟩]).lastLowTime = 1150 ∧
    (∀ c ∈ ([⟨1100, 100⟩, ⟨1150, 20⟩] : List Sample), ¬ FALL_HIGH_G < c.acc) ∧
    fallOut (run boot [⟨1100, 100⟩, ⟨1150, 20⟩]) ⟨1600, 300⟩ = true := by decide

/-- Claim C3, amended: if the magnitude drops below `lowGThreshold` on
sample `a` (entering the low-g window at T = `a.t`), and no sample processed
while the window flag is set — including the FIRST sample `b` with
timestamp beyond `T + detectionWindowMs` — exceeds `highGThreshold`, then no
fall is produced for that dip and the window flag is cleared when `b` is
processed.  (The original claim only constrained samples before
`T + detectionWindowMs`; the counterexample shows the first post-window
sample must be constrained too.) -/
theorem claimC3_windowExpiry (pre : List Sample) (a : Sample)
    (mid : List Sample) (b : Sample)
    (hlw : (run boot pre).inLowWindow = false)
    (hacc : a.acc < FALL_LOW_G)
    (hg : COOLDOWN_MS < a.t - (run boot pre).lastFallTime)
    (hmid : ∀ c ∈ mid, a.t ≤ c.t ∧ c.t ≤ a.t + WINDOW_MS ∧ ¬ FALL_HIGH_G < c.acc)
    (hbt : a.t + WINDOW_MS < b.t)
    (hbacc : ¬ FALL_HIGH_G < b.acc) :
    fallOut (run boot pre) a = false ∧
    (∀ l₁ c l₂, mid = l₁ ++ c :: l₂ →
      fallOut (run boot (pre ++ a :: l₁)) c = false) ∧
    fallOut (run boot (pre ++ a :: mid)) b = false ∧
    (run boot (pre ++ a :: (mid ++ [b]))).inLowWindow = false := by
  have hfd0 : (run boot pre).fallDetected = false := run_fd pre boot rfl
  obtain ⟨houtA, hw1, hlt1, -, hft1, hfd1, -⟩ :=
    lowEntry_step (run boot pre) a hfd0 hlw hacc hg
  have hgate : (step (run boot pre) a).lastFallTime + COOLDOWN_MS < a.t := by
    rw [hft1]
    omega
  have hlow := low_run a.t (step (run boot pre) a).lastFallTime mid
    (step (run boot pre) a) hfd1 hw1 hlt1 rfl hgate hmid
  refine ⟨houtA, ?_, ?_, ?_⟩
  · intro l₁ c l₂ hdec
    rw [run_path]
    exact hlow.2.2.2.2 l₁ c l₂ hdec
  · rw [run_path]
    have hg2 : COOLDOWN_MS < b.t - (run (step (run boot pre) a) mid).lastFallTime := by
      rw [hlow.2.2.1]
      omega
    have ht2 : WINDOW_MS < b.t - (run (step (run boot pre) a) mid).lastLowTime := by
      rw [hlow.2.1]
      omega
    exact (lowExpire_step _ b hlow.2.2.2.1 hlow.1 hg2 hbacc ht2).1
  · have hsplit : pre ++ a :: (mid ++ [b]) = (pre ++ a :: mid) ++ [b] := by simp
    rw [hsplit, run_append, run_path, run_cons, run_nil]
    have hg2 : COOLDOWN_MS < b.t - (run (step (run boot pre) a) mid).lastFallTime := by
      rw [hlow.2.2.1]
      omega
    have ht2 : WINDOW_MS < b.t - (run (step (run boot pre) a) mid).lastLowTime := by
      rw [hlow.2.1]
      omega
    exact (lowExpire_step _ b hlow.2.2.2.1 hlow.1 hg2 hbacc ht2).2.1

/-- Witness for C3 (amended): dip at t=1100, quiet samples inside the
window, first sample past the window at t=1450 — no fall anywhere, window
flag cleared. -/
theorem claimC3_witness :
    (run boot [Sample.mk 1050 100]).inLowWindow = false ∧
    fallOut (run boot ([⟨1050, 100⟩] ++ ⟨1100, 20⟩ :: [⟨1200, 25⟩])) ⟨1450, 100⟩
      = false ∧
    (run boot ([⟨1050, 100⟩] ++ ⟨1100, 20⟩ :: ([⟨1200, 25⟩] ++ [⟨1450, 100⟩]))).inLowWindow
      = false :=
  ⟨by decide,
    (claimC3_windowExpiry [⟨1050, 100⟩] ⟨1100, 20⟩ [⟨1200, 25⟩] ⟨1450, 100⟩
      (by decide) (by decide) (by decide) (by decide) (by decide) (by decide)).2.2.1,
    (claimC3_windowExpiry [⟨1050, 100⟩] ⟨1100, 20⟩ [⟨1200, 25⟩] ⟨1450, 100⟩
      (by decide) (by decide) (by decide) (by decide) (by decide) (by decide)).2.2.2⟩

/-- Claim C4: `update()` is edge-triggered.  If falls are detected on two
samples `a` (earlier) and `b` (later, intermediate samples `mid` between
them carrying timestamps `≤ b.t` per the monotone clock), then (i) the two
detections are more than `cooldownMs` apart, so a sustained high reading
never yields two `true`s within `cooldownMs`, and (ii) some intermediate
sample dipped below `lowGThreshold` — each `true` needs a fresh low→high
transition. -/
theorem claimC4_edgeTriggered (pre : List Sample) (a : Sample)
    (mid : List Sample) (b : Sample)
    (hfallA : fallOut (run boot pre) a = true)
    (hfallB : fallOut (run boot (pre ++ a :: mid)) b = true)
    (hmono : ∀ c ∈ mid, c.t ≤ b.t) :
    a.t + COOLDOWN_MS < b.t ∧ ∃ c ∈ mid, c.acc < FALL_LOW_G := by
  constructor
  · by_contra hle
    push_neg at hle
    have : fallOut (run boot (pre ++ a :: mid)) b = false :=
      fall_then_cooldown pre a mid b hfallA
        (fun c hc => le_trans (hmono c hc) hle) hle
    rw [hfallB] at this
    exact absurd this (by simp)
  · have hfd0 : (run boot pre).fallDetected = false := run_fd pre boot rfl
    obtain ⟨-, -, -, -, hw1, -⟩ := fall_step (run boot pre) a hfd0 hfallA
    have hfdS : (run boot (pre ++ a :: mid)).fallDetected = false :=
      run_fd _ boot rfl
    have hwS : (run boot (pre ++ a :: mid)).inLowWindow = true := by
      rw [fallOut_eq, hfdS] at hfallB
      simp only [Bool.false_or, Bool.and_eq_true, decide_eq_true_eq] at hfallB
      exact hfallB.1.2
    rw [run_path] at hwS
    exact lowAppears_run mid (step (run boot pre) a) hw1 hwS

/-- Witness for C4: falls at t=1002 and t=2200 — more than `cooldownMs`
apart, with a fresh dip (t=2100, 0.2g) in between. -/
theorem claimC4_witness :
    fallOut (run boot [Sample.mk 1001 20]) ⟨1002, 300⟩ = true ∧
    fallOut (run boot ([⟨1001, 20⟩] ++ ⟨1002, 300⟩ :: [⟨2100, 20⟩])) ⟨2200, 300⟩
      = true ∧
    (1002 + COOLDOWN_MS < 2200 ∧
      ∃ c ∈ ([⟨2100, 20⟩] : List Sample), c.acc < FALL_LOW_G) :=
  ⟨by decide, by decide,
    claimC4_edgeTriggered [⟨1001, 20⟩] ⟨1002, 300⟩ [⟨2100, 20⟩] ⟨2200, 300⟩
      (by decide) (by decide) (by decide)⟩

/-- Claim C5, counterexample: fall detected at t=1002 (the earliest the boot
cooldown allows; the claim's t=1000 is unreachable), all later samples at
1.0g through t=22000.  The claim says the inactivity alert fires at
≈ T+10000 and again ≈ T+20000; in fact NO alert ever fires: the very first
1.0g sample after the 3.0g impact has |1.0 − 3.0| > 0.05g, registers as
movement, and clears `inactivityTriggered` for good. -/
theorem claimC5_counterexample :
    outs boot [⟨1001, 20⟩, ⟨1002, 300⟩, ⟨2000, 100⟩, ⟨6000, 100⟩, ⟨11003, 100⟩,
        ⟨12000, 100⟩, ⟨15000, 100⟩, ⟨21004, 100⟩, ⟨22000, 100⟩] =
      [(false, false), (true, false), (false, false), (false, false),
        (false, false), (false, false), (false, false), (false, false),
        (false, false)] ∧
    (run boot [⟨1001, 20⟩, ⟨1002, 300⟩, ⟨2000, 100⟩]).inactivityTriggered
      = false := by decide

/-- Claim C5, amended: after a fall on sample `a` (time T), if every later
sample keeps within the movement-delta threshold of its predecessor (which
requires staying near the impact magnitude — returning to 1.0g clears the
flag, see the counterexample) and never dips below `lowGThreshold`, then no
alert fires until the first sample `b` with timestamp strictly beyond
`T + inactivityTimeoutMs`, the alert fires on `b`, stays silent until the
first sample `b'` strictly beyond `b.t + inactivityRealertIntervalMs`
(= 10000 ms, the same literal), and fires again on `b'` — and so on
(the post-`b'` state repeats the post-`b` shape). -/
theorem claimC5_inactivityRepeat (pre : List Sample) (a : Sample)
    (mid₁ : List Sample) (b : Sample) (mid₂ : List Sample) (b' : Sample)
    (hfall : fallOut (run boot pre) a = true)
    (hchain : List.Chain (fun x y => ¬ MOVEMENT_DELTA < |y - x|) a.acc
      ((mid₁ ++ b :: (mid₂ ++ [b'])).map Sample.acc))
    (hmid₁ : ∀ c ∈ mid₁, ¬ c.acc < FALL_LOW_G ∧ c.t ≤ a.t + INACTIVITY_MS)
    (hbacc : ¬ b.acc < FALL_LOW_G) (hbt : a.t + INACTIVITY_MS < b.t)
    (hmid₂ : ∀ c ∈ mid₂, ¬ c.acc < FALL_LOW_G ∧ c.t ≤ b.t + INACTIVITY_MS)
    (hb'acc : ¬ b'.acc < FALL_LOW_G) (hb't : b.t + INACTIVITY_MS < b'.t) :
    (∀ l₁ c l₂, mid₁ = l₁ ++ c :: l₂ →
      alertOut (run boot (pre ++ a :: l₁)) c = false) ∧
    alertOut (run boot (pre ++ a :: mid₁)) b = true ∧
    (∀ l₁ c l₂, mid₂ = l₁ ++ c :: l₂ →
      alertOut (run boot (pre ++ a :: (mid₁ ++ b :: l₁))) c = false) ∧
    alertOut (run boot (pre ++ a :: (mid₁ ++ b :: mid₂))) b' = true := by
  have hfd0 : (run boot pre).fallDetected = false := run_fd pre boot rfl
  obtain ⟨hft1, hM1, hB1, htr1, hw1, hfd1, hacc1, -, -, -, -⟩ :=
    fall_step (run boot pre) a hfd0 hfall
  rw [List.map_append, List.map_cons, List.chain_split] at hchain
  obtain ⟨hchainA, hchainB⟩ := hchain
  rw [chain_append_singleton] at hchainA
  obtain ⟨hchain1, hlink1⟩ := hchainA
  simp only [List.map_append, List.map_cons, List.map_nil] at hchainB
  rw [chain_append_singleton] at hchainB
  obtain ⟨hchain2, hlink2⟩ := hchainB
  obtain ⟨ntr, nM, nB, nw, nfd, nacc, ndec⟩ :=
    nomove_run mid₁ (step (run boot pre) a) hfd1 hw1 htr1
      (by rw [hacc1]; exact hchain1)
      (by intro c hc
          refine ⟨(hmid₁ c hc).1, ?_⟩
          rw [hB1]
          exact (hmid₁ c hc).2)
  have hδb : ¬ MOVEMENT_DELTA <
      |b.acc - (run (step (run boot pre) a) mid₁).lastAcc| := by
    rw [nacc, hacc1]
    exact hlink1
  have hMb : INACTIVITY_MS <
      b.t - (run (step (run boot pre) a) mid₁).lastMovementTime := by
    rw [nM, hM1]
    omega
  have hBb : INACTIVITY_MS <
      b.t - (run (step (run boot pre) a) mid₁).lastBuzzToggle := by
    rw [nB, hB1]
    omega
  obtain ⟨aT, fB2, ftr2, fM2, fw2, ffd2, facc2, -⟩ :=
    alert_fire_step (run (step (run boot pre) a) mid₁) b nfd nw ntr hδb hbacc
      hMb hBb
  obtain ⟨mtr, mM, mB, mw, mfd, macc, mdec⟩ :=
    nomove_run mid₂ (step (run (step (run boot pre) a) mid₁) b) ffd2 fw2 ftr2
      (by rw [facc2]; exact hchain2)
      (by intro c hc
          refine ⟨(hmid₂ c hc).1, ?_⟩
          rw [fB2]
          exact (hmid₂ c hc).2)
  have hδb' : ¬ MOVEMENT_DELTA <
      |b'.acc - (run (step (run (step (run boot pre) a) mid₁) b) mid₂).lastAcc| := by
    rw [macc, facc2]
    exact hlink2
  have hMb' : INACTIVITY_MS <
      b'.t - (run (step (run (step (run boot pre) a) mid₁) b) mid₂).lastMovementTime := by
    rw [mM, fM2, nM, hM1]
    omega
  have hBb' : INACTIVITY_MS <
      b'.t - (run (step (run (step (run boot pre) a) mid₁) b) mid₂).lastBuzzToggle := by
    rw [mB, fB2]
    omega
  have final :=
    (alert_fire_step (run (step (run (step (run boot pre) a) mid₁) b) mid₂) b'
      mfd mw mtr hδb' hb'acc hMb' hBb').1
  have hpath2 : ∀ l : List Sample,
      run boot (pre ++ a :: (mid₁ ++ b :: l)) =
        run (step (run (step (run boot pre) a) mid₁) b) l := by
    intro l
    rw [run_path, run_append, run_cons]
  refine ⟨?_, ?_, ?_, ?_⟩
  · intro l₁ c l₂ hdec
    rw [run_path]
    exact ndec l₁ c l₂ hdec
  · rw [run_path]
    exact aT
  · intro l₁ c l₂ hdec
    rw [hpath2 l₁]
    exact mdec l₁ c l₂ hdec
  · rw [hpath2 mid₂]
    exact final

/-- Witness for C5 (amended): fall at t=1002 with later samples held at the
impact magnitude 3.0g — the alert fires at t=11003 (first sample after
1002+10000) and again at t=21004 (first sample after 11003+10000), and not
on the quiet samples in between. -/
theorem claimC5_witness :
    fallOut (run boot [Sample.mk 1001 20]) ⟨1002, 300⟩ = true ∧
    alertOut (run boot ([⟨1001, 20⟩] ++ ⟨1002, 300⟩ :: [⟨3000, 300⟩]))
      ⟨11003, 300⟩ = true ∧
    alertOut (run boot ([⟨1001, 20⟩] ++ ⟨1002, 300⟩ ::
      ([⟨3000, 300⟩] ++ ⟨11003, 300⟩ :: [⟨15000, 300⟩]))) ⟨21004, 300⟩ = true :=
  ⟨by decide,
    (claimC5_inactivityRepeat [⟨1001, 20⟩] ⟨1002, 300⟩ [⟨3000, 300⟩]
      ⟨11003, 300⟩ [⟨15000, 300⟩] ⟨21004, 300⟩ (by decide)
      (by simp only [List.map_append, List.map_cons, List.map_nil,
            List.cons_append, List.nil_append, List.chain_cons]
          exact ⟨by decide, by decide, by decide, by decide, List.Chain.nil⟩)
      (by decide) (by decide) (by decide) (by decide) (by decide)
      (by decide)).2.1,
    (claimC5_inactivityRepeat [⟨1001, 20⟩] ⟨1002, 300⟩ [⟨3000, 300⟩]
      ⟨11003, 300⟩ [⟨15000, 300⟩] ⟨21004, 300⟩ (by decide)
      (by simp only [List.map_append, List.map_cons, List.map_nil,
            List.cons_append, List.nil_append, List.chain_cons]
          exact ⟨by decide, by decide, by decide, by decide, List.Chain.nil⟩)
      (by decide) (by decide) (by decide) (by decide) (by decide)
      (by decide)).2.2.2⟩

/-- Claim C6, counterexample, two facets.  (i) The movement check is strict
(`> 0.05`), not `≥`: after the fall at t=1002 (impact 3.0g), the sample at
t=1100 with 2.95g has delta exactly 0.05g — the claim's "≥ threshold"
premise holds — yet the flag is NOT cleared and an inactivity alert fires
at t=11003.  (ii) A movement delta does not silence alerts for good: after
movement at t=2000, a fresh dip-and-impact at t=2100/2200 re-arms the
tracker and an alert fires at t=12203. -/
theorem claimC6_counterexample :
    (MOVEMENT_DELTA ≤ |(295 : ℤ) - 300|) ∧
    fallOut (run boot [⟨1001, 20⟩]) ⟨1002, 300⟩ = true ∧
    (run boot [⟨1001, 20⟩, ⟨1002, 300⟩]).lastAcc = 300 ∧
    ((1100 : ℕ) ≤ 1002 + INACTIVITY_MS) ∧
    (run boot [⟨1001, 20⟩, ⟨1002, 300⟩, ⟨1100, 295⟩]).inactivityTriggered
      = true ∧
    alertOut (run boot [⟨1001, 20⟩, ⟨1002, 300⟩, ⟨1100, 295⟩]) ⟨11003, 295⟩
      = true ∧
    (MOVEMENT_DELTA < |(100 : ℤ) - 300|) ∧
    fallOut (run boot [⟨1001, 20⟩, ⟨1002, 300⟩, ⟨2000, 100⟩, ⟨2100, 20⟩])
      ⟨2200, 300⟩ = true ∧
    alertOut (run boot [⟨1001, 20⟩, ⟨1002, 300⟩, ⟨2000, 100⟩, ⟨2100, 20⟩,
      ⟨2200, 300⟩]) ⟨12203, 300⟩ = true := by decide

/-- Claim C6, amended: if, after a fall on sample `a`, a sample `c` arrives
before the inactivity timeout whose magnitude differs from the previous one
by STRICTLY more than the movement threshold, the `inactivityTriggered`
flag is cleared at `c` and — absent a new fall, i.e. while no later sample
dips below `lowGThreshold` — no inactivity alert fires at any sample of the
episode. -/
theorem claimC6_movementCancels (pre : List Sample) (a : Sample)
    (mid : List Sample) (c : Sample) (rest : List Sample)
    (hfall : fallOut (run boot pre) a = true)
    (hmid : ∀ d ∈ mid, ¬ d.acc < FALL_LOW_G ∧ a.t ≤ d.t ∧ d.t ≤ a.t + INACTIVITY_MS)
    (hcmove : MOVEMENT_DELTA < |c.acc - (run boot (pre ++ a :: mid)).lastAcc|)
    (_hct : c.t ≤ a.t + INACTIVITY_MS)
    (hcacc : ¬ c.acc < FALL_LOW_G)
    (hrest : ∀ d ∈ rest, ¬ d.acc < FALL_LOW_G) :
    (run boot (pre ++ a :: (mid ++ [c]))).inactivityTriggered = false ∧
    (run boot (pre ++ a :: (mid ++ c :: rest))).inactivityTriggered = false ∧
    (∀ l₁ d l₂, mid = l₁ ++ d :: l₂ →
      alertOut (run boot (pre ++ a :: l₁)) d = false) ∧
    alertOut (run boot (pre ++ a :: mid)) c = false ∧
    (∀ l₁ d l₂, rest = l₁ ++ d :: l₂ →
      alertOut (run boot (pre ++ a :: (mid ++ c :: l₁))) d = false) := by
  have hfd0 : (run boot pre).fallDetected = false := run_fd pre boot rfl
  obtain ⟨hft1, hM1, hB1, htr1, hw1, hfd1, hacc1, -, -, -, -⟩ :=
    fall_step (run boot pre) a hfd0 hfall
  obtain ⟨mbM, mbw, mbfd, mbdec⟩ :=
    mbound_run a.t mid (step (run boot pre) a) hfd1 hw1 (by rw [hM1])
      (fun d hd => ⟨(hmid d hd).1, (hmid d hd).2.1, (hmid d hd).2.2⟩)
  rw [run_path] at hcmove
  obtain ⟨-, cw', -, -, cfd', -, -, -, -, ctr', chalert⟩ :=
    calm_step (run (step (run boot pre) a) mid) c mbfd mbw hcacc
  have ctr2 : (step (run (step (run boot pre) a) mid) c).inactivityTriggered
      = false := by
    rw [ctr', if_pos hcmove]
  have calert : alertOut (run (step (run boot pre) a) mid) c = false := by
    rw [chalert, ctr2]
    simp
  obtain ⟨ttr, -, -, tdec⟩ :=
    trigoff_run rest (step (run (step (run boot pre) a) mid) c)
      (step_fallDetected _ _) (by rw [cw']; exact mbw) ctr2 hrest
  have hpathc : ∀ l : List Sample,
      run boot (pre ++ a :: (mid ++ c :: l)) =
        run (step (run (step (run boot pre) a) mid) c) l := by
    intro l
    rw [run_path, run_append, run_cons]
  refine ⟨?_, ?_, ?_, ?_, ?_⟩
  · have h1 : pre ++ a :: (mid ++ [c]) = pre ++ a :: (mid ++ c :: []) := rfl
    rw [h1, hpathc [], run_nil]
    exact ctr2
  · rw [hpathc rest]
    exact ttr
  · intro l₁ d l₂ hdec
    rw [run_path]
    exact mbdec l₁ d l₂ hdec
  · rw [run_path]
    exact calert
  · intro l₁ d l₂ hdec
    rw [hpathc l₁]
    exact tdec l₁ d l₂ hdec

/-- Witness for C6 (amended): fall at t=1002 (3.0g), movement at t=2000
(1.0g, delta 2.0g > 0.05g) — the flag clears and no alert fires at the
samples around t=11003/12000 where the original timeout would have expired. -/
theorem claimC6_witness :
    fallOut (run boot [Sample.mk 1001 20]) ⟨1002, 300⟩ = true ∧
    MOVEMENT_DELTA <
      |(100 : ℤ) - (run boot ([⟨1001, 20⟩] ++ ⟨1002, 300⟩ :: [])).lastAcc| ∧
    (run boot ([⟨1001, 20⟩] ++ ⟨1002, 300⟩ ::
      ([] ++ ⟨2000, 100⟩ :: [⟨11003, 100⟩, ⟨12000, 100⟩]))).inactivityTriggered
      = false ∧
    alertOut (run boot ([⟨1001, 20⟩] ++ ⟨1002, 300⟩ :: [])) ⟨2000, 100⟩
      = false :=
  ⟨by decide, by decide,
    (claimC6_movementCancels [⟨1001, 20⟩] ⟨1002, 300⟩ [] ⟨2000, 100⟩
      [⟨11003, 100⟩, ⟨12000, 100⟩] (by decide) (by decide) (by decide)
      (by decide) (by decide) (by decide)).2.1,
    (claimC6_movementCancels [⟨1001, 20⟩] ⟨1002, 300⟩ [] ⟨2000, 100⟩
      [⟨11003, 100⟩, ⟨12000, 100⟩] (by decide) (by decide) (by decide)
      (by decide) (by decide) (by decide)).2.2.2.1⟩
